import Mathlib

/-!
# Verification of the clippy crawl-orchestration core

A shallow embedding of the crawler, robots.txt evaluator, sitemap
discoverer, block detector, engine waterfall and dedup tracker of the
clippy repository, together with theorems settling the frozen claims
about them.

External collaborators (the WHATWG URL parser, the cheerio XML reader,
the network) are modelled as explicit inputs: URL parsing is a small
executable parser covering the scheme://host/path?query shape the code
relies on, network responses are oracle functions passed to the model.
All crawler-side logic (normalisation, admission, dedup, robots
matching, block detection, waterfall escalation, sitemap capping) is
translated directly from the TypeScript source.
-/

namespace Clippy

/-! ## Character and substring utilities (JS string helpers) -/

/-- ASCII letter test matching the `[a-z]` character class under the `/i`
regex flag. -/
def isAZi (c : Char) : Bool :=
  ('a' ≤ c && c ≤ 'z') || ('A' ≤ c && c ≤ 'Z')

/-- Lower-case a character list (models `toLowerCase` on ASCII data). -/
def lowerL (s : List Char) : List Char := s.map Char.toLower

/-- Substring occurrence test on character lists (models
`String.prototype.includes`). -/
def subListB (needle : List Char) : List Char → Bool
  | [] => needle.isEmpty
  | c :: rest => needle.isPrefixOf (c :: rest) || subListB needle rest

/-- Case-sensitive `includes`. -/
def containsStr (s sub : String) : Bool := subListB sub.data s.data

/-- Case-insensitive containment: models a `/literal/i` regex test. -/
def containsCI (s sub : String) : Bool :=
  subListB (lowerL sub.data) (lowerL s.data)

/-- Drop through the first occurrence of `needle`, returning the suffix
directly after it (regex scanning helper). -/
def firstDrop (needle : List Char) : List Char → Option (List Char)
  | [] => if needle.isEmpty then some [] else none
  | c :: rest =>
    if needle.isPrefixOf (c :: rest) then some ((c :: rest).drop needle.length)
    else firstDrop needle rest

/-- Models `toLowerCase` (kernel-reducible `String` wrapper). -/
def strLower (s : String) : String := String.mk (lowerL s.data)

/-- Models `startsWith` (kernel-reducible). -/
def strStartsWith (s pre : String) : Bool := pre.data.isPrefixOf s.data

/-- Models `endsWith` (kernel-reducible). -/
def strEndsWith (s suf : String) : Bool := suf.data.isSuffixOf s.data

/-- Drop the first `n` characters (kernel-reducible). -/
def strDrop (s : String) (n : Nat) : String := String.mk (s.data.drop n)

/-- Drop the last `n` characters (kernel-reducible). -/
def strDropRight (s : String) (n : Nat) : String :=
  String.mk (s.data.take (s.data.length - n))

/-- Models `trim`: strip leading and trailing whitespace (kernel-reducible). -/
def strTrim (s : String) : String :=
  String.mk
    (((s.data.dropWhile Char.isWhitespace).reverse.dropWhile
        Char.isWhitespace).reverse)

/-- Split on a separator character, keeping empty segments — the
behaviour of `split(sep)` for a one-character separator. -/
def splitOnChar (sep : Char) : List Char → List (List Char)
  | [] => [[]]
  | c :: rest =>
    if c = sep then [] :: splitOnChar sep rest
    else
      match splitOnChar sep rest with
      | [] => [[c]]
      | h :: t => (c :: h) :: t

/-- Split on `-` or `_` (the `split(/[-_]/)` of `extractLocale`). -/
def splitDash : List Char → List (List Char)
  | [] => [[]]
  | c :: rest =>
    if c = '-' || c = '_' then [] :: splitDash rest
    else
      match splitDash rest with
      | [] => [[c]]
      | h :: t => (c :: h) :: t

/-- The test `subListB` is monotone under appending on the right: a substring of
`h` is a substring of `h ++ t`. -/
theorem subListB_append_of_subListB (needle h t : List Char)
    (hs : subListB needle h = true) : subListB needle (h ++ t) = true := by
  induction h with
  | nil =>
    simp [subListB] at hs
    subst hs
    cases t with
    | nil => simp [subListB]
    | cons c cs => simp [subListB, List.isPrefixOf]
  | cons c cs ih =>
    simp only [subListB, Bool.or_eq_true] at hs
    rcases hs with hpre | hrest
    · have hpre' : needle <+: (c :: cs) := by
        exact (List.isPrefixOf_iff_prefix).mp hpre
      have : needle <+: ((c :: cs) ++ t) := hpre'.trans (List.prefix_append _ _)
      simp only [List.cons_append, subListB, Bool.or_eq_true]
      exact Or.inl ((List.isPrefixOf_iff_prefix).mpr (by simpa using this))
    · simp only [List.cons_append, subListB, Bool.or_eq_true]
      exact Or.inr (ih hrest)

/-! ## URL model

The source calls the WHATWG `new URL(...)` constructor.  We model the
fragment of it the code relies on: an absolute `scheme://host/path?query`
URL with the query exposed as an ordered parameter list
(`searchParams`).  Fragments are stripped; ports, userinfo and
percent-encoding are not modelled (no claim depends on them). -/

structure UrlParts where
  scheme : String
  host : String
  pathname : String
  params : List (String × String)
deriving DecidableEq, Repr

/-- Split a query string on `&` and each piece on its first `=`. -/
def parseQuery (q : List Char) : List (String × String) :=
  let pieces := (splitOnChar '&' q).map String.mk
  (pieces.filter (fun p => p ≠ "")).map (fun p =>
    let cs := p.data
    let k := cs.takeWhile (· ≠ '=')
    let rest := cs.dropWhile (· ≠ '=')
    (String.mk k, String.mk (rest.drop 1)))

/-- Find the `"://"` separator: returns (scheme chars, remainder). -/
def splitScheme : List Char → Option (List Char × List Char)
  | [] => none
  | ':' :: '/' :: '/' :: rest => some ([], rest)
  | c :: rest =>
    (splitScheme rest).map (fun p => (c :: p.1, p.2))

/-- Model of `new URL(url)` for absolute URLs; `none` models the
constructor throwing. -/
def parseUrl (url : String) : Option UrlParts :=
  match splitScheme url.data with
  | none => none
  | some (schemeCs, rest) =>
    if schemeCs = [] then none
    else
      let authority := rest.takeWhile (fun c => c ≠ '/' && c ≠ '?' && c ≠ '#')
      let afterAuth := rest.dropWhile (fun c => c ≠ '/' && c ≠ '?' && c ≠ '#')
      if authority = [] then none
      else
        let pathCs := afterAuth.takeWhile (fun c => c ≠ '?' && c ≠ '#')
        let afterPath := afterAuth.dropWhile (fun c => c ≠ '?' && c ≠ '#')
        let pathname := if pathCs = [] then "/" else String.mk pathCs
        let queryCs :=
          match afterPath with
          | '?' :: qs => qs.takeWhile (· ≠ '#')
          | _ => []
        some ⟨String.mk schemeCs, String.mk (lowerL authority), pathname,
              parseQuery queryCs⟩

/-- First value of a query parameter (`searchParams.get`). -/
def getParam (u : UrlParts) (k : String) : Option String :=
  (u.params.find? (fun p => p.1 = k)).map (·.2)

/-- Remove every occurrence of a query parameter (`searchParams.delete`). -/
def deleteParam (ps : List (String × String)) (k : String) :
    List (String × String) :=
  ps.filter (fun p => p.1 ≠ k)

/-- Join with `&` (kernel-reducible `intercalate`). -/
def joinAmp : List String → String
  | [] => ""
  | [x] => x
  | x :: y :: rest => x ++ "&" ++ joinAmp (y :: rest)

/-- Models `searchParams.toString()`: `k=v` pairs joined by `&`. -/
def renderParams (ps : List (String × String)) : String :=
  joinAmp (ps.map (fun p => p.1 ++ "=" ++ p.2))

/-- The `.search` accessor: `?query` or the empty string. -/
def searchOf (ps : List (String × String)) : String :=
  if ps.isEmpty then "" else "?" ++ renderParams ps

/-! ## `src/utils/url.ts` -/

/-- Translation of `normalizeUrl`: prefix `https://` when the scheme is
missing, strip one trailing slash, drop tracking parameters and the
fragment, and re-render as `origin + path + search`.  A parse failure
returns the input unchanged (the `catch` branch). -/
def normalizeUrl (url : String) : String :=
  let url' := if strStartsWith url "http" then url else "https://" ++ url
  match parseUrl url' with
  | none => url
  | some p =>
    let path :=
      if strEndsWith p.pathname "/" && p.pathname ≠ "/" then
        strDropRight p.pathname 1
      else p.pathname
    let ps := [ "utm_source", "utm_medium", "utm_campaign", "utm_content",
                "utm_term", "ref", "fbclid", "gclid"
              ].foldl deleteParam p.params
    p.scheme ++ "://" ++ p.host ++ path ++ searchOf ps

/-- Translation of `getBaseDomain`: hostname with a leading `www.`
stripped; the input itself on parse failure. -/
def getBaseDomain (url : String) : String :=
  let url' := if strStartsWith url "http" then url else "https://" ++ url
  match parseUrl url' with
  | none => url
  | some p =>
    if strStartsWith p.host "www." then strDrop p.host 4 else p.host

/-- The `SKIP_EXTENSIONS` set from `src/utils/url.ts`. -/
def SKIP_EXTENSIONS : List String :=
  [ ".pdf", ".jpg", ".jpeg", ".png", ".gif", ".svg", ".ico", ".webp",
    ".avif", ".css", ".js", ".mjs", ".cjs", ".ts", ".tsx", ".jsx",
    ".woff", ".woff2", ".ttf", ".eot", ".otf", ".mp4", ".mp3", ".wav",
    ".ogg", ".webm", ".avi", ".mov", ".zip", ".tar", ".gz", ".rar",
    ".7z", ".exe", ".dmg", ".pkg", ".deb", ".rpm", ".json", ".xml",
    ".yaml", ".yml", ".toml", ".doc", ".docx", ".xls", ".xlsx", ".ppt",
    ".pptx" ]

/-- Translation of `shouldSkipUrl`: skip non-HTML resource extensions and
`mailto:`/`javascript:`/`tel:` links; parse failure skips. -/
def shouldSkipUrl (url : String) : Bool :=
  match parseUrl url with
  | none => true
  | some p =>
    let pathname := strLower p.pathname
    if SKIP_EXTENSIONS.any (fun ext => strEndsWith pathname ext) then true
    else if strStartsWith url "mailto:" || strStartsWith url "javascript:" ||
        strStartsWith url "tel:" then true
    else false

/-! ## `src/utils/dedup.ts`: locale extraction -/

/-- The `LANGUAGE_CODES` set (ISO 639-1) from the source. -/
def LANGUAGE_CODES : List String :=
  [ "en", "de", "fr", "es", "it", "pt", "nl", "pl", "ru", "ja", "ko",
    "zh", "ar", "hi", "tr", "vi", "th", "id", "ms", "sv", "no", "da",
    "fi", "cs", "el", "he", "hu", "ro", "sk", "uk", "bg", "hr", "lt",
    "lv", "et", "sl",
    "bn", "ta", "te", "mr", "gu", "kn", "ml", "pa", "ur",
    "km", "lo", "ne", "si", "tl", "mn", "fa", "ps",
    "sq", "mk", "sr", "bs", "is", "mt", "cy", "ga", "eu", "gl",
    "sw", "am", "af", "ha", "yo", "ig", "zu",
    "az", "uz", "kk", "ka", "hy", "tg" ]

/-- The `COUNTRY_CODES` set (ISO 3166-1 alpha-2) from the source. -/
def COUNTRY_CODES : List String :=
  [ "us", "gb", "uk", "ca", "au", "nz", "ie", "de", "at", "ch", "fr",
    "be", "es", "it", "pt", "nl", "pl", "ru", "se", "no", "dk", "fi",
    "cz", "gr", "hu", "ro", "sk", "ua", "bg", "hr", "rs", "si", "lt",
    "lv", "ee",
    "jp", "kr", "cn", "tw", "hk", "sg", "my", "th", "vn", "ph", "mm",
    "kh", "la", "np", "lk", "bd", "pk",
    "in", "ae", "sa", "il", "eg", "ma", "dz", "tn", "lb", "jo", "kw",
    "qa", "bh", "om", "iq", "ir", "tr",
    "za", "ng", "ke", "gh", "tz", "ug", "et", "sn", "ci",
    "mx", "ar", "br", "co", "cl", "pe", "ec", "ve", "bo", "py", "uy",
    "cr", "pa", "gt", "hn", "ni", "cu", "do", "pr", "jm" ]

/-- The mid-path false-positive exclusion list from `extractLocale`. -/
def MID_FALSE_POSITIVES : List String :=
  [ "us", "uk", "my", "in", "at", "be", "to", "do", "go", "so", "no",
    "id", "am", "is", "it", "me", "or", "as", "if", "an", "on", "up",
    "la", "ha", "pa", "om" ]

structure LocaleInfo where
  hasLocale : Bool
  locale : Option String
  language : Option String
  country : Option String
  canonicalPath : String
deriving DecidableEq, Repr

/-- Two matched letters, lower-cased (a captured `([a-z]{2})` group under
`/i`, then `toLowerCase()`). -/
def lower2 (a b : Char) : String := String.mk [a.toLower, b.toLower]

/-- Leading-locale regex `^\/([a-z]{2})([-_]([a-z]{2}))?(?=\/|$)/i`:
returns the lower-cased captures on a match at the start of the path. -/
def matchLeadingLocale (p : List Char) : Option (String × Option String) :=
  match p with
  | '/' :: a :: b :: rest =>
    if isAZi a && isAZi b then
      match rest with
      | s :: c :: d :: rest2 =>
        if (s = '-' || s = '_') && isAZi c && isAZi d &&
            (rest2.isEmpty || rest2.head? = some '/') then
          some (lower2 a b, some (lower2 c d))
        else if rest.head? = some '/' then some (lower2 a b, none)
        else none
      | _ =>
        if rest.isEmpty || rest.head? = some '/' then
          some (lower2 a b, none)
        else none
    else none
  | _ => none

/-- One attempt of the mid-path locale regex
`\/([a-z]{2})([-_]([a-z]{2}))?(?=\/)/i` at the current position:
on success returns the captures and the unconsumed suffix (the lookahead
slash stays in the suffix). -/
def tryMidLocale (p : List Char) : Option (String × Option String × List Char) :=
  match p with
  | '/' :: a :: b :: rest =>
    if isAZi a && isAZi b then
      match rest with
      | s :: c :: d :: rest2 =>
        if (s = '-' || s = '_') && isAZi c && isAZi d &&
            rest2.head? = some '/' then
          some (lower2 a b, some (lower2 c d), rest2)
        else if rest.head? = some '/' then some (lower2 a b, none, rest)
        else none
      | _ =>
        if rest.head? = some '/' then some (lower2 a b, none, rest)
        else none
    else none
  | _ => none

/-- Leftmost match of the mid-path locale regex: returns the prefix
before the match, the captures, and the suffix after the matched
segment (so the `replace(..., "")` result is `pre ++ suffix`). -/
def matchMidLocale : List Char →
    Option (List Char × String × Option String × List Char)
  | [] => none
  | c :: rest =>
    match tryMidLocale (c :: rest) with
    | some (f, s, rem) => some ([], f, s, rem)
    | none =>
      (matchMidLocale rest).map (fun q => (c :: q.1, q.2.1, q.2.2.1, q.2.2.2))

/-- Translation of `extractLocale` from `src/utils/dedup.ts`: leading
path segment, then a mid-path segment, then locale query parameters;
the canonical path is the path with any detected locale segment removed
and locale query parameters stripped.  A URL parse failure returns
`hasLocale = false` with the raw URL as canonical path. -/
def extractLocale (url : String) : LocaleInfo :=
  match parseUrl url with
  | none => ⟨false, none, none, none, url⟩
  | some u =>
    let path0 := u.pathname
    -- leading-segment check
    let step1 : String × Option String × Option String × Option String :=
      match matchLeadingLocale path0.data with
      | none => (path0, none, none, none)
      | some (first, secondOpt) =>
        let isLang := LANGUAGE_CODES.contains first
        let isCtry := COUNTRY_CODES.contains first
        if isLang || isCtry then
          let language : Option String := if isLang then some first else none
          let country0 : Option String := if isLang then none else some first
          let dropLen := if secondOpt.isSome then 6 else 3
          let stripped :=
            if strDrop path0 dropLen = "" then "/" else strDrop path0 dropLen
          match secondOpt with
          | some second =>
            if COUNTRY_CODES.contains second then
              (stripped, some (first ++ "-" ++ second), language, some second)
            else if LANGUAGE_CODES.contains second then
              (stripped, some (first ++ "-" ++ second), language, some second)
            else (stripped, some first, language, country0)
          | none => (stripped, some first, language, country0)
        else (path0, none, none, none)
    let (path1, loc1, lang1, ctry1) := step1
    -- mid-path check (only when no locale was found yet)
    let step2 : String × Option String × Option String × Option String :=
      if loc1.isSome then (path1, loc1, lang1, ctry1)
      else
        match matchMidLocale path1.data with
        | none => (path1, loc1, lang1, ctry1)
        | some (pre, first, secondOpt, suffix) =>
          let isLang := LANGUAGE_CODES.contains first
          let isCtry := COUNTRY_CODES.contains first
          let isFP := MID_FALSE_POSITIVES.contains first
          if (isLang || isCtry) && !isFP then
            let language : Option String := if isLang then some first else lang1
            let country0 : Option String := if isLang then ctry1 else some first
            let stripped := String.mk (pre ++ suffix)
            match secondOpt with
            | some second =>
              if COUNTRY_CODES.contains second then
                (stripped, some (first ++ "-" ++ second), language, some second)
              else (stripped, some first, language, country0)
            | none => (stripped, some first, language, country0)
          else (path1, loc1, lang1, ctry1)
    let (path2, loc2, lang2, ctry2) := step2
    -- query-parameter check (only when still no locale)
    let langParam : Option String :=
      match getParam u "lang" with
      | some v => if v = "" then none else some v
      | none => none
    let langParam :=
      match langParam with
      | some v => some v
      | none =>
        match getParam u "locale" with
        | some v => if v = "" then none else some v
        | none => none
    let langParam :=
      match langParam with
      | some v => some v
      | none =>
        match getParam u "hl" with
        | some v => if v = "" then none else some v
        | none => none
    let langParam :=
      match langParam with
      | some v => some v
      | none =>
        match getParam u "language" with
        | some v => if v = "" then none else some v
        | none => none
    let step3 : Option String × Option String × Option String :=
      match langParam with
      | none => (loc2, lang2, ctry2)
      | some v =>
        if loc2.isSome then (loc2, lang2, ctry2)
        else
          let parts := (splitDash (strLower v).data).map String.mk
          match parts with
          | [] => (loc2, lang2, ctry2)
          | p0 :: restParts =>
            if LANGUAGE_CODES.contains p0 then
              match restParts with
              | p1 :: _ =>
                if COUNTRY_CODES.contains p1 then
                  (some (p0 ++ "-" ++ p1), some p0, some p1)
                else (some p0, some p0, ctry2)
              | [] => (some p0, some p0, ctry2)
            else (loc2, lang2, ctry2)
    let (locF, langF, ctryF) := step3
    let ps := [ "lang", "locale", "hl", "language" ].foldl deleteParam u.params
    let queryString := renderParams ps
    let canonicalPath :=
      path2 ++ (if queryString ≠ "" then "?" ++ queryString else "")
    ⟨locF.isSome, locF, langF, ctryF, canonicalPath⟩

/-! ## `src/utils/dedup.ts`: the dedup tracker -/

structure RepEntry where
  url : String
  locale : Option String
deriving DecidableEq, Repr

structure SkipResult where
  skip : Bool
  reason : Option String
deriving DecidableEq, Repr

/-- The mutable state of a `DedupTracker` (the `canonicalPaths` map plus
the statistics counters the methods touch). -/
structure DedupState where
  canonicalPaths : List (String × RepEntry)
  localeSkipped : Nat
  total : Nat
deriving DecidableEq, Repr

def emptyDedup : DedupState := ⟨[], 0, 0⟩

/-- Models `Map.get` on the association-list model. -/
def lookupAssoc {α : Type} (l : List (String × α)) (k : String) : Option α :=
  (l.find? (fun p => p.1 = k)).map (·.2)

/-- Models `Map.set` on the association-list model: replace the entry in place
when the key is present, append otherwise (JS `Map` insertion-order
semantics). -/
def setAssoc {α : Type} : List (String × α) → String → α → List (String × α)
  | [], k, v => [(k, v)]
  | p :: rest, k, v =>
    if p.1 = k then (k, v) :: rest else p :: setAssoc rest k v

/-- Translation of `DedupTracker.shouldSkip`.  `none` models the
uncaught exception thrown by `new URL(url)` on a malformed URL; the
result pairs the `{skip, reason}` value with the updated tracker
state. -/
def dedupShouldSkip (st : DedupState) (preferredLanguage : String)
    (url : String) : Option (SkipResult × DedupState) :=
  match parseUrl url with
  | none => none
  | some p =>
    let li := extractLocale url
    let key := p.host ++ li.canonicalPath
    match lookupAssoc st.canonicalPaths key with
    | some existing =>
      if li.hasLocale then
        let exL := extractLocale existing.url
        if exL.language = some preferredLanguage || exL.hasLocale = false then
          some (⟨true, some ("locale:" ++ li.locale.getD "")⟩,
                { st with localeSkipped := st.localeSkipped + 1 })
        else if li.language = some preferredLanguage then
          some (⟨false, none⟩,
                { st with canonicalPaths :=
                    setAssoc st.canonicalPaths key ⟨url, li.locale⟩ })
        else
          some (⟨true, some ("locale:" ++ li.locale.getD "")⟩,
                { st with localeSkipped := st.localeSkipped + 1 })
      else
        some (⟨false, none⟩,
              { st with
                  canonicalPaths := setAssoc st.canonicalPaths key ⟨url, li.locale⟩,
                  total := st.total + 1 })
    | none =>
      some (⟨false, none⟩,
            { st with
                canonicalPaths := setAssoc st.canonicalPaths key ⟨url, li.locale⟩,
                total := st.total + 1 })

/-! ## `src/crawler/robots.ts` -/

structure RobotsRule where
  userAgent : String
  allow : List String
  disallow : List String
  crawlDelay : Option ℚ
deriving DecidableEq, Repr

structure RobotsState where
  rules : List (String × List RobotsRule)
  sitemaps : List (String × List String)
deriving DecidableEq, Repr

def emptyRobots : RobotsState := ⟨[], []⟩

/-- Simplified `parseFloat` for plain decimal literals: an optional
sign, a digit prefix, an optional fractional part; `none` models NaN. -/
def parseFloatQ (s : String) : Option ℚ :=
  let cs0 := s.data
  let sign : ℚ := if cs0.head? = some '-' then -1 else 1
  let cs :=
    if cs0.head? = some '-' || cs0.head? = some '+' then cs0.drop 1 else cs0
  let intPart := cs.takeWhile (·.isDigit)
  let rest := cs.dropWhile (·.isDigit)
  if intPart.isEmpty then none
  else
    let intVal : ℚ := intPart.foldl (fun a c => a * 10 + ((c.toNat - 48 : ℕ) : ℚ)) 0
    let fracCs : List Char :=
      match rest with
      | '.' :: fs => fs.takeWhile (·.isDigit)
      | _ => []
    let fracVal : ℚ :=
      (fracCs.foldl (fun a c => a * 10 + ((c.toNat - 48 : ℕ) : ℚ)) (0 : ℚ)) /
        (10 ^ fracCs.length)
    some (sign * (intVal + fracVal))

/-- The per-line fold state of `parseRobotsTxt`. -/
structure RobotsParseAcc where
  rules : List RobotsRule
  sitemaps : List String
  currentRule : Option RobotsRule

/-- One line of `parseRobotsTxt`: trim, skip comments/blank lines, split
on the first colon and dispatch on the lower-cased directive. -/
def robotsLine (acc : RobotsParseAcc) (line : String) : RobotsParseAcc :=
  let trimmed := strTrim line
  if trimmed = "" || strStartsWith trimmed "#" then acc
  else
    let cs := trimmed.data
    let before := cs.takeWhile (· ≠ ':')
    let after := cs.dropWhile (· ≠ ':')
    match after with
    | [] => acc
    | _ :: rest =>
      let directive := strTrim (strLower (String.mk before))
      let value := strTrim (String.mk rest)
      if directive = "user-agent" then
        { acc with
            rules :=
              (match acc.currentRule with
               | some r => acc.rules ++ [r]
               | none => acc.rules),
            currentRule := some ⟨strLower value, [], [], none⟩ }
      else if directive = "allow" then
        match acc.currentRule with
        | some r =>
          if value ≠ "" then
            { acc with currentRule := some ({ r with allow := r.allow ++ [value] }) }
          else acc
        | none => acc
      else if directive = "disallow" then
        match acc.currentRule with
        | some r =>
          if value ≠ "" then
            { acc with
                currentRule := some ({ r with disallow := r.disallow ++ [value] }) }
          else acc
        | none => acc
      else if directive = "crawl-delay" then
        match acc.currentRule with
        | some r =>
          match parseFloatQ value with
          | some d => { acc with currentRule := some ({ r with crawlDelay := some d }) }
          | none => acc
        | none => acc
      else if directive = "sitemap" then
        if value ≠ "" then { acc with sitemaps := acc.sitemaps ++ [value] }
        else acc
      else acc

/-- Translation of `RobotsParser.parseRobotsTxt`: fold the lines, close
the open rule block, and record the rules and sitemaps for the host. -/
def parseRobotsTxt (st : RobotsState) (host text : String) : RobotsState :=
  let acc := ((splitOnChar '\n' text.data).map String.mk).foldl robotsLine
    ⟨[], [], none⟩
  let finalRules :=
    match acc.currentRule with
    | some r => acc.rules ++ [r]
    | none => acc.rules
  { rules := setAssoc st.rules host finalRules,
    sitemaps := setAssoc st.sitemaps host acc.sitemaps }

/-- A robots.txt fetch outcome: `none` is a network failure, otherwise
`(ok, body)` with the HTTP success flag. -/
def robotsFetchFailed (r : Option (Bool × String)) : Bool :=
  match r with
  | none => true
  | some (ok, _) => !ok

/-- Translation of `RobotsParser.parse`, with the network response an
explicit input.  On a malformed URL the method rejects and the state is
unchanged; if the host was parsed before nothing happens; a non-OK
response or fetch failure records an empty rule set (fail-open). -/
def robotsParse (st : RobotsState) (url : String)
    (response : Option (Bool × String)) : RobotsState :=
  match parseUrl url with
  | none => st
  | some p =>
    if (lookupAssoc st.rules p.host).isSome then st
    else
      match response with
      | none => { st with rules := setAssoc st.rules p.host [] }
      | some (ok, text) =>
        if !ok then { st with rules := setAssoc st.rules p.host [] }
        else parseRobotsTxt st p.host text

/-- Split a pattern on `*` into its literal chunks (the regex pieces
between the `.*` produced by the `replace(/\*/g, ".*")` conversion). -/
def splitChunks (cs : List Char) : List (List Char) :=
  match cs with
  | [] => [[]]
  | '*' :: rest => [] :: splitChunks rest
  | c :: rest =>
    match splitChunks rest with
    | [] => [[c]]
    | h :: t => (c :: h) :: t

/-- Match the `.*c₁.*c₂...` tail of the converted regex against `s`:
each chunk after the first is searched left to right; the final chunk is
a suffix when the pattern was `$`-anchored, otherwise an occurrence. -/
def tailChunksMatch (anchored : Bool) : List (List Char) → List Char → Bool
  | [], _ => true
  | [c], s => if anchored then c.isSuffixOf s else subListB c s
  | c :: c2 :: cs, s =>
    match firstDrop c s with
    | some r => tailChunksMatch anchored (c2 :: cs) r
    | none => false

/-- Translation of `RobotsParser.pathMatches`: the pattern `/` matches
everything; otherwise the pattern is converted to the anchored regex
`^…` with `*` as `.*` and an optional trailing `$`, and tested against
the path. -/
def pathMatches (path pattern : String) : Bool :=
  if pattern = "/" then true
  else
    let anchored := strEndsWith pattern "$"
    let patCs :=
      if anchored then (strDropRight pattern 1).data else pattern.data
    match splitChunks patCs with
    | [] => true
    | [c] =>
      if anchored then path.data = c else c.isPrefixOf path.data
    | c :: c2 :: cs =>
      c.isPrefixOf path.data &&
        tailChunksMatch anchored (c2 :: cs) (path.data.drop c.length)

structure RMatch where
  pattern : String
  isAllow : Bool
deriving DecidableEq, Repr

/-- The `reduce` step of `isAllowed`: keep the strictly longer pattern;
on an equal length prefer an allow pattern. -/
def betterMatch (best current : RMatch) : RMatch :=
  if best.pattern.length < current.pattern.length then current
  else if current.pattern.length = best.pattern.length && current.isAllow then
    current
  else best

/-- Collect every matching allow/disallow pattern of the rule blocks
that apply to the user agent, allow patterns of a block first. -/
def collectMatches (matching : List RobotsRule) (path : String) : List RMatch :=
  matching.flatMap (fun r =>
    ((r.allow.filter (fun a => pathMatches path a)).map (fun a => ⟨a, true⟩)) ++
    ((r.disallow.filter (fun d => pathMatches path d)).map (fun d => ⟨d, false⟩)))

/-- Translation of `RobotsParser.isAllowed`: fail-open on parse errors,
missing or empty host records and non-matching rule sets; otherwise the
longest matching pattern decides, allow winning ties. -/
def isAllowed (st : RobotsState) (url : String) (userAgent : String) : Bool :=
  match parseUrl url with
  | none => true
  | some u =>
    let path := u.pathname ++ searchOf u.params
    match lookupAssoc st.rules u.host with
    | none => true
    | some hostRules =>
      if hostRules.isEmpty then true
      else
        let matching := hostRules.filter
          (fun r => r.userAgent = strLower userAgent || r.userAgent = "*")
        if matching.isEmpty then true
        else
          match collectMatches matching path with
          | [] => true
          | m :: ms => (ms.foldl betterMatch m).isAllow

/-- Translation of `RobotsParser.getSitemaps`. -/
def getSitemaps (st : RobotsState) (url : String) : List String :=
  match parseUrl url with
  | none => []
  | some u => (lookupAssoc st.sitemaps u.host).getD []

/-! ## `src/engine/detector.ts` -/

inductive BlockReason where
  | cloudflare
  | datadome
  | captcha
  | rate_limit
  | forbidden
  | empty_body
  | javascript_required
  | access_denied
deriving DecidableEq, Repr

structure BlockCheck where
  blocked : Bool
  reason : Option BlockReason
  confidence : ℚ
deriving DecidableEq, Repr

/-- The Cloudflare regex list; every entry is a literal tested
case-insensitively (or case-sensitively for the unflagged ones). -/
def CLOUDFLARE_PATTERNS : List (String → Bool) :=
  [ fun h => containsCI h "checking your browser",
    fun h => containsCI h "cf-browser-verification",
    fun h => containsCI h "cloudflare",
    fun h => containsStr h "_cf_chl_opt",
    fun h => containsCI h "challenge-platform",
    fun h => containsCI h "just a moment...",
    fun h => containsCI h "ray id:",
    fun h => containsCI h "cf-turnstile" ]

def DATADOME_PATTERNS : List (String → Bool) :=
  [ fun h => containsCI h "datadome",
    fun h => containsStr h "dd.js",
    fun h => containsStr h "captcha-delivery.com",
    fun h => containsStr h "geo.captcha-delivery.com" ]

def PERIMETERX_PATTERNS : List (String → Bool) :=
  [ fun h => containsCI h "perimeterx",
    fun h => containsCI h "px-captcha",
    fun h => containsStr h "_pxhd",
    fun h => containsCI h "human challenge" ]

def AKAMAI_PATTERNS : List (String → Bool) :=
  [ fun h => containsCI h "akamai",
    fun h => containsStr h "ak_bmsc",
    fun h => containsStr h "_abck" ]

/-- The regex with a wildcard: "browser" followed somewhere later by
"not supported". -/
def browserNotSupported (h : String) : Bool :=
  match firstDrop (lowerL "browser".data) (lowerL h.data) with
  | some r => subListB (lowerL "not supported".data) r
  | none => false

def BOT_DETECTION_PATTERNS : List (String → Bool) :=
  [ fun h => containsCI h "access denied",
    fun h => containsCI h "please verify you are human",
    fun h => containsCI h "enable javascript",
    browserNotSupported,
    fun h => containsCI h "automated access",
    fun h => containsCI h "bot detected",
    fun h => containsCI h "please complete the security check",
    fun h => containsCI h "unusual traffic",
    fun h => containsCI h "blocked",
    fun h => containsCI h "forbidden",
    fun h => containsCI h "not allowed" ]

def CAPTCHA_PATTERNS : List (String → Bool) :=
  [ fun h => containsCI h "recaptcha",
    fun h => containsCI h "hcaptcha",
    fun h => containsStr h "g-recaptcha",
    fun h => containsStr h "h-captcha",
    fun h => containsCI h "captcha",
    fun h => containsCI h "turnstile" ]

/-- Number of patterns of a list matching the body (the
`filter(...)...length` used by the detector). -/
def countMatches (ps : List (String → Bool)) (h : String) : Nat :=
  (ps.filter (fun p => p h)).length

/-- Models `some(...)` on a pattern list. -/
def anyMatches (ps : List (String → Bool)) (h : String) : Bool :=
  ps.any (fun p => p h)

/-- Translation of `isBlocked` from `src/engine/detector.ts`, branch for
branch in source order. -/
def isBlocked (html : String) (statusCode : Nat) (_url : String) : BlockCheck :=
  if statusCode = 403 then ⟨true, some .forbidden, 9/10⟩
  else if statusCode = 429 then ⟨true, some .rate_limit, 95/100⟩
  else if statusCode = 503 ∧ anyMatches CLOUDFLARE_PATTERNS html = true then
    ⟨true, some .cloudflare, 95/100⟩
  else if html.length < 500 ∧ html ≠ "" ∧
      (containsStr html "challenge" = true ∨ containsStr html "captcha" = true) then
    ⟨true, some .empty_body, 7/10⟩
  else if 2 ≤ countMatches CLOUDFLARE_PATTERNS html then
    ⟨true, some .cloudflare, 9/10⟩
  else if 2 ≤ countMatches DATADOME_PATTERNS html ∧ html.length < 50000 then
    ⟨true, some .datadome, 9/10⟩
  else if anyMatches PERIMETERX_PATTERNS html = true ∧ html.length < 50000 then
    ⟨true, some .access_denied, 85/100⟩
  else if 2 ≤ countMatches AKAMAI_PATTERNS html ∧ html.length < 50000 then
    ⟨true, some .access_denied, 8/10⟩
  else if 2 ≤ countMatches CAPTCHA_PATTERNS html ∧ html.length < 10000 then
    ⟨true, some .captcha, 85/100⟩
  else if anyMatches BOT_DETECTION_PATTERNS html = true ∧ html.length < 3000 then
    ⟨true, some .access_denied, 7/10⟩
  else if containsStr html "noscript" = true ∧
      (containsStr html "enable javascript" = true ∨
       containsStr html "JavaScript is required" = true) ∧
      containsStr html "<article" = false ∧
      containsStr html "<main" = false ∧
      html.length < 5000 then
    ⟨true, some .javascript_required, 6/10⟩
  else ⟨false, none, 0⟩

def KNOWN_PROTECTED_DOMAINS : List String :=
  [ "linkedin.com", "instagram.com", "facebook.com", "twitter.com",
    "x.com", "tiktok.com", "indeed.com", "glassdoor.com", "zillow.com",
    "yelp.com" ]

/-- Translation of `needsBrowser`: exact or subdomain match against the
known protected domains (the source strips the first `www.`). -/
def needsBrowser (url : String) : Bool :=
  match parseUrl url with
  | none => false
  | some u =>
    let hostname :=
      if strStartsWith u.host "www." then strDrop u.host 4 else u.host
    if KNOWN_PROTECTED_DOMAINS.contains hostname then true
    else KNOWN_PROTECTED_DOMAINS.any
      (fun d => strEndsWith hostname ("." ++ d))

/-! ## `src/engine/index.ts`: the engine waterfall -/

inductive EngineName where
  | fetch
  | playwright
  | rebrowser
deriving DecidableEq, Repr

/-- The waterfall's priority order (`ENGINES`). -/
def ENGINES_ORDER : List EngineName :=
  [.fetch, .playwright, .rebrowser]

/-- What a strategy's underlying `engine.fetch` produced. -/
structure RawFetch where
  html : String
  statusCode : Nat
  finalUrl : String
deriving DecidableEq, Repr

/-- The waterfall's per-strategy network behaviour: `none` models the
strategy throwing (network error, timeout, unavailable browser). -/
def EngineOracle := EngineName → Option RawFetch

structure EngineResult where
  html : String
  statusCode : Nat
  engine : EngineName
  blocked : Bool
  blockReason : Option BlockReason
  finalUrl : String
deriving DecidableEq, Repr

/-- Translation of `EngineWaterfall.fetchWithEngine`: run the strategy
and attach the block-detector verdict. -/
def fetchWithEngine (oracle : EngineOracle) (url : String)
    (name : EngineName) : Option EngineResult :=
  match oracle name with
  | none => none
  | some raw =>
    let bc := isBlocked raw.html raw.statusCode url
    some ⟨raw.html, raw.statusCode, name, bc.blocked, bc.reason, raw.finalUrl⟩

/-- The escalation loop of `EngineWaterfall.fetch`: try each remaining
strategy in order, returning the first un-blocked result together with
the list of strategies invoked; `Except.error` models the terminal
"All engines failed" error. -/
def waterfallLoop (oracle : EngineOracle) (url : String) :
    List EngineName → List EngineName → Except Unit EngineResult × List EngineName
  | [], invoked => (.error (), invoked)
  | e :: rest, invoked =>
    match fetchWithEngine oracle url e with
    | none => waterfallLoop oracle url rest (invoked ++ [e])
    | some r =>
      if r.blocked then waterfallLoop oracle url rest (invoked ++ [e])
      else (.ok r, invoked ++ [e])

/-- Translation of `EngineWaterfall.fetch`: a forced engine short-cuts
the waterfall; otherwise known-protected hosts skip the cheap strategy
and the loop escalates on failure or detected block. -/
def waterfallFetch (oracle : EngineOracle) (url : String)
    (forceEngine : Option EngineName) :
    Except Unit EngineResult × List EngineName :=
  match forceEngine with
  | some e =>
    (match fetchWithEngine oracle url e with
     | none => (.error (), [e])
     | some r => (.ok r, [e]))
  | none =>
    let startIdx := if needsBrowser url then 1 else 0
    waterfallLoop oracle url (ENGINES_ORDER.drop startIdx) []

/-! ## `src/crawler/sitemap.ts`: `parseSitemapContent`

The XML reading itself is done by the external cheerio library, so the
two extraction helpers (`parseSitemapIndex`, `parseUrlset`) and the
network fetch are explicit function inputs; the capping and fan-out
logic is translated from the source. -/

/-- The body of the `for` loop over the first two child sitemaps:
accumulates discovered URLs (capped at 200) and the list of child
sitemaps for which a fetch was attempted. -/
def sitemapLoop (fetchO : String → Option String)
    (parseUrlsetF : String → List String) :
    List String → List String → List String → List String × List String
  | [], urls, fetched => (urls, fetched)
  | iu :: rest, urls, fetched =>
    if 200 ≤ urls.length then (urls, fetched)
    else
      match fetchO iu with
      | none => sitemapLoop fetchO parseUrlsetF rest urls (fetched ++ [iu])
      | some sub =>
        sitemapLoop fetchO parseUrlsetF rest
          (urls ++ (parseUrlsetF sub).take (200 - urls.length))
          (fetched ++ [iu])

/-- Translation of `SitemapParser.parseSitemapContent`: a sitemap index
is expanded through only its first two children under a combined
200-URL cap; a direct urlset is capped at 200 directly.  Returns the
discovered URLs and the child sitemaps fetched. -/
def parseSitemapContent (fetchO : String → Option String)
    (parseIndexF parseUrlsetF : String → List String)
    (content : String) : List String × List String :=
  if containsStr content "<sitemapindex" then
    let out := sitemapLoop fetchO parseUrlsetF
      ((parseIndexF content).take 2) [] []
    (out.1.take 200, out.2)
  else
    (((parseUrlsetF content).take 200).take 200, [])

/-! ## `src/crawler/index.ts`: the crawl scheduler

The scheduler runs concurrent fetch tasks whose network and extraction
outcomes are environment-controlled, so it is embedded as a transition
system: each constructor of `CrawlStep` is one of the state mutations
the source performs (seeding, sitemap admission, link admission,
task completion, yielding a buffered result), with the environment's
choices (fetch outcomes, extracted links) appearing as constructor
arguments.  The relation over-approximates scheduling freedom — any
interleaving the event loop could produce is a step sequence — so the
budget and depth invariants proved over it cover every real run. -/

structure CrawlOptions where
  depth : Nat
  concurrency : Nat
  maxPages : Nat
  rateLimit : Nat
  timeout : Nat
  respectRobots : Bool
  useSitemap : Bool
  includePattern : Option (String → Bool)
  excludePattern : Option (String → Bool)
  forceEngine : Option EngineName
  useAuth : Bool

/-- The `DEFAULT_OPTIONS` of the source. -/
def defaultOptions : CrawlOptions :=
  ⟨2, 10, 150, 10, 10000, true, true, none, none, none, true⟩

structure CrawlResultM where
  url : String
  finalUrl : String
  extractedWordCount : Nat
  depth : Nat
  engine : String
deriving DecidableEq, Repr

structure CrawlerState where
  visited : List String
  tasks : List (String × Nat)
  results : List CrawlResultM
  yielded : List CrawlResultM
  dedup : DedupState
  baseHosts : List String
  robots : RobotsState

/-- Translation of `Crawler.shouldCrawl`: the admission pipeline in
source order, returning the verdict together with the (possibly
mutated) dedup-tracker state.  A `dedupShouldSkip` parse failure models
the thrown exception caught by the surrounding `try` (rejection, state
unchanged). -/
def shouldCrawl (opts : CrawlOptions) (visited : List String)
    (baseHosts : List String) (robots : RobotsState) (dedup : DedupState)
    (url : String) (depth : Nat) : Bool × DedupState :=
  if visited.contains (normalizeUrl url) then (false, dedup)
  else if opts.maxPages ≤ visited.length then (false, dedup)
  else if opts.depth < depth then (false, dedup)
  else if shouldSkipUrl url then (false, dedup)
  else if !(baseHosts.contains (getBaseDomain url)) then (false, dedup)
  else if opts.respectRobots && !(isAllowed robots url "*") then (false, dedup)
  else if (match opts.includePattern with
           | some p => !(p url)
           | none => false) then (false, dedup)
  else if (match opts.excludePattern with
           | some p => p url
           | none => false) then (false, dedup)
  else
    match dedupShouldSkip dedup "en" url with
    | none => (false, dedup)
    | some (res, dedup') =>
      if res.skip then (false, dedup') else (true, dedup')

/-- Translation of `Crawler.addToQueue`: skip already-visited URLs,
enforce the page budget on the visited set, then mark visited and
enqueue the processing task. -/
def addToQueue (opts : CrawlOptions) (st : CrawlerState) (url : String)
    (depth : Nat) : CrawlerState :=
  if st.visited.contains (normalizeUrl url) then st
  else if opts.maxPages ≤ st.visited.length then st
  else
    { st with
        visited := normalizeUrl url :: st.visited,
        tasks := (url, depth) :: st.tasks }

/-- The crawler's state at the start of `crawl` (empty visited set,
queue and buffers; base hosts and robots records as configured). -/
def initCrawler (baseHosts : List String) (robots : RobotsState) :
    CrawlerState :=
  ⟨[], [], [], [], emptyDedup, baseHosts, robots⟩

/-- One scheduler event.  `seed` is the loop over start URLs; `sitemap`
admits a discovered sitemap URL at depth 1 through `shouldCrawl`;
`link` admits a link discovered by an in-flight task at `depth + 1`,
gated by the source's `depth < options.depth` test and `shouldCrawl`;
`finishNone` is a task that produced no result (blocked, HTTP ≥ 400,
low content or thrown error); `finishSome` is a task pushing its one
result (carrying the task's depth); `yieldResult` moves the buffer head
to the output stream. -/
inductive CrawlStep (opts : CrawlOptions) : CrawlerState → CrawlerState → Prop
  | seed (st : CrawlerState) (url : String) :
      CrawlStep opts st (addToQueue opts st url 0)
  | sitemap (st : CrawlerState) (url : String)
      (hsc : (shouldCrawl opts st.visited st.baseHosts st.robots st.dedup
                url 1).1 = true) :
      CrawlStep opts st
        (addToQueue opts
          { st with dedup := (shouldCrawl opts st.visited st.baseHosts
                                st.robots st.dedup url 1).2 }
          url 1)
  | link (st : CrawlerState) (t : String × Nat) (url : String)
      (hmem : t ∈ st.tasks) (hd : t.2 < opts.depth)
      (hsc : (shouldCrawl opts st.visited st.baseHosts st.robots st.dedup
                url (t.2 + 1)).1 = true) :
      CrawlStep opts st
        (addToQueue opts
          { st with dedup := (shouldCrawl opts st.visited st.baseHosts
                                st.robots st.dedup url (t.2 + 1)).2 }
          url (t.2 + 1))
  | finishNone (st : CrawlerState) (t : String × Nat) (hmem : t ∈ st.tasks) :
      CrawlStep opts st { st with tasks := st.tasks.erase t }
  | finishSome (st : CrawlerState) (t : String × Nat) (hmem : t ∈ st.tasks)
      (finalUrl engine : String) (wordCount : Nat) :
      CrawlStep opts st
        { st with
            tasks := st.tasks.erase t,
            results := st.results ++ [⟨t.1, finalUrl, wordCount, t.2, engine⟩] }
  | yieldResult (st : CrawlerState) (r : CrawlResultM) (rs : List CrawlResultM)
      (hres : st.results = r :: rs) :
      CrawlStep opts st
        { st with results := rs, yielded := st.yielded ++ [r] }

/-- States reachable during one `crawl` invocation. -/
inductive CrawlReachable (opts : CrawlOptions) : CrawlerState → Prop
  | init (baseHosts : List String) (robots : RobotsState) :
      CrawlReachable opts (initCrawler baseHosts robots)
  | step {s s' : CrawlerState} :
      CrawlReachable opts s → CrawlStep opts s s' → CrawlReachable opts s'

/-! ## Crawler invariants (claims C1 and C2) -/

/-- An accepted admission respects the configured depth bound (the
`depth > options.depth` check of `shouldCrawl`). -/
theorem shouldCrawl_depth_le (opts : CrawlOptions) (visited baseHosts : List String)
    (robots : RobotsState) (dedup : DedupState) (url : String) (depth : Nat)
    (h : (shouldCrawl opts visited baseHosts robots dedup url depth).1 = true) :
    depth ≤ opts.depth := by
  by_contra hd
  push_neg at hd
  unfold shouldCrawl at h
  split_ifs at h

/-- The inductive invariant of the crawl loop: the output stream, the
result buffer and the pending tasks are jointly bounded by the visited
set, the visited set by the page budget, and every pending task and
buffered or yielded result respects the depth bound. -/
def CrawlInv (opts : CrawlOptions) (s : CrawlerState) : Prop :=
  (s.yielded.length + s.results.length + s.tasks.length ≤ s.visited.length) ∧
  (s.visited.length ≤ opts.maxPages) ∧
  (∀ t ∈ s.tasks, t.2 ≤ opts.depth) ∧
  (∀ r ∈ s.results, r.depth ≤ opts.depth) ∧
  (∀ r ∈ s.yielded, r.depth ≤ opts.depth)

theorem crawlInv_addToQueue (opts : CrawlOptions) (st : CrawlerState)
    (url : String) (depth : Nat) (hinv : CrawlInv opts st)
    (hdep : depth ≤ opts.depth) :
    CrawlInv opts (addToQueue opts st url depth) := by
  obtain ⟨h1, h2, h3, h4, h5⟩ := hinv
  unfold addToQueue
  split_ifs with hc hm
  · exact ⟨h1, h2, h3, h4, h5⟩
  · exact ⟨h1, h2, h3, h4, h5⟩
  · refine ⟨?_, ?_, ?_, h4, h5⟩
    · simp only [List.length_cons]
      omega
    · simp only [List.length_cons]
      omega
    · intro t ht
      rcases List.mem_cons.mp ht with h | h
      · subst h; exact hdep
      · exact h3 t h

/-- Replacing only the dedup-tracker component preserves the invariant. -/
theorem crawlInv_setDedup (opts : CrawlOptions) (st : CrawlerState)
    (d : DedupState) (hinv : CrawlInv opts st) :
    CrawlInv opts { st with dedup := d } := hinv

theorem crawlInv_step (opts : CrawlOptions) {s s' : CrawlerState}
    (hstep : CrawlStep opts s s') (hinv : CrawlInv opts s) :
    CrawlInv opts s' := by
  obtain ⟨h1, h2, h3, h4, h5⟩ := hinv
  cases hstep with
  | seed url =>
    exact crawlInv_addToQueue opts s url 0 ⟨h1, h2, h3, h4, h5⟩
      (Nat.zero_le _)
  | sitemap url hsc =>
    exact crawlInv_addToQueue opts _ url 1
      (crawlInv_setDedup opts s _ ⟨h1, h2, h3, h4, h5⟩)
      (shouldCrawl_depth_le opts _ _ _ _ _ _ hsc)
  | link t url hmem hd hsc =>
    exact crawlInv_addToQueue opts _ url (t.2 + 1)
      (crawlInv_setDedup opts s _ ⟨h1, h2, h3, h4, h5⟩)
      (by omega)
  | finishNone t hmem =>
    refine ⟨?_, h2, ?_, h4, h5⟩
    · have hlen := List.length_erase_of_mem hmem
      have hpos : 0 < s.tasks.length := List.length_pos_of_mem hmem
      simp only [hlen]
      omega
    · intro x hx
      exact h3 x (List.mem_of_mem_erase hx)
  | finishSome t hmem finalUrl engine wordCount =>
    refine ⟨?_, h2, ?_, ?_, h5⟩
    · have hlen := List.length_erase_of_mem hmem
      have hpos : 0 < s.tasks.length := List.length_pos_of_mem hmem
      simp only [hlen, List.length_append, List.length_cons, List.length_nil]
      omega
    · intro x hx
      exact h3 x (List.mem_of_mem_erase hx)
    · intro r hr
      rcases List.mem_append.mp hr with h | h
      · exact h4 r h
      · simp only [List.mem_singleton] at h
        subst h
        exact h3 t hmem
  | yieldResult r rs hres =>
    refine ⟨?_, h2, h3, ?_, ?_⟩
    · rw [hres] at h1
      simp only [List.length_append, List.length_cons, List.length_nil] at h1 ⊢
      omega
    · intro x hx
      exact h4 x (by rw [hres]; exact List.mem_cons_of_mem _ hx)
    · intro x hx
      rcases List.mem_append.mp hx with h | h
      · exact h5 x h
      · simp only [List.mem_singleton] at h
        subst h
        exact h4 x (by rw [hres]; exact List.mem_cons_self _ _)

theorem crawlInv_reachable (opts : CrawlOptions) {s : CrawlerState}
    (h : CrawlReachable opts s) : CrawlInv opts s := by
  induction h with
  | init baseHosts robots =>
    refine ⟨?_, ?_, ?_, ?_, ?_⟩ <;> simp [initCrawler]
  | step _ hstep ih => exact crawlInv_step opts hstep ih

/-- C1.  For every crawl configured with `maxPages = M`, the total
number of Crawl Results yielded by `Crawler.crawl` over the entire run
(including the final buffer flush) never exceeds `M`: in every
reachable scheduler state the yield stream is no longer than the page
budget, because every yielded result came out of the buffer, every
buffered result from a queued task, every task from an admission to the
visited set, and `addToQueue` stops admitting at `maxPages` visited
URLs. -/
theorem c1_page_budget (opts : CrawlOptions) {s : CrawlerState}
    (h : CrawlReachable opts s) : s.yielded.length ≤ opts.maxPages := by
  obtain ⟨h1, h2, _, _, _⟩ := crawlInv_reachable opts h
  omega

theorem c1_page_budget_witness :
    (initCrawler ["example.com"] emptyRobots).yielded.length
      ≤ defaultOptions.maxPages :=
  c1_page_budget defaultOptions (CrawlReachable.init _ _)

/-- C2.  For every crawl configured with `depth = N`, every yielded
Crawl Result has `depth ≤ N`: seeds enter at depth 0, sitemap URLs pass
`shouldCrawl` at depth 1, and links found at depth `d` are admitted at
`d + 1` only under the source's `depth < options.depth` guard, so every
task — and hence every result — stays within the bound. -/
theorem c2_depth_bound (opts : CrawlOptions) {s : CrawlerState}
    (h : CrawlReachable opts s) {r : CrawlResultM} (hr : r ∈ s.yielded) :
    r.depth ≤ opts.depth := by
  obtain ⟨_, _, _, _, h5⟩ := crawlInv_reachable opts h
  exact h5 r hr

theorem c2_depth_bound_witness :
    (⟨"https://example.com", "https://example.com/", 100, 0,
      "fetch"⟩ : CrawlResultM).depth ≤ defaultOptions.depth := by
  have h0 : CrawlReachable defaultOptions
      (initCrawler ["example.com"] emptyRobots) := CrawlReachable.init _ _
  have h1 := CrawlReachable.step h0
    (CrawlStep.seed _ "https://example.com")
  have h2 := CrawlReachable.step h1
    (CrawlStep.finishSome _ ("https://example.com", 0) (by decide)
      "https://example.com/" "fetch" 100)
  have h3 := CrawlReachable.step h2
    (CrawlStep.yieldResult _
      ⟨"https://example.com", "https://example.com/", 100, 0, "fetch"⟩ []
      (by decide))
  exact c2_depth_bound defaultOptions h3 (by decide)

/-! ## Dedup-tracker lemmas (claims C3, C5 and C10) -/

/-- A malformed URL makes `shouldSkip` throw before touching any state. -/
theorem dedupShouldSkip_parse_none (st : DedupState) (pref url : String)
    (h : parseUrl url = none) : dedupShouldSkip st pref url = none := by
  unfold dedupShouldSkip
  rw [h]

/-- On a URL without a detected locale, `shouldSkip` always accepts and
(re-)records the URL as the representative of its canonical key,
whatever the current tracker state. -/
theorem dedupShouldSkip_no_locale (st : DedupState) (pref url : String)
    (p : UrlParts) (hp : parseUrl url = some p)
    (h : (extractLocale url).hasLocale = false) :
    dedupShouldSkip st pref url =
      some (⟨false, none⟩,
        { st with
            canonicalPaths := setAssoc st.canonicalPaths
              (p.host ++ (extractLocale url).canonicalPath)
              ⟨url, (extractLocale url).locale⟩,
            total := st.total + 1 }) := by
  simp only [dedupShouldSkip, hp]
  cases hlk : lookupAssoc st.canonicalPaths
      (p.host ++ (extractLocale url).canonicalPath) with
  | none => simp [hlk]
  | some existing => simp [hlk, h]

/-- Looking up a key right after setting it yields the stored value. -/
theorem lookupAssoc_setAssoc {α : Type} (l : List (String × α)) (k : String)
    (v : α) : lookupAssoc (setAssoc l k v) k = some v := by
  induction l with
  | nil => simp [setAssoc, lookupAssoc, List.find?]
  | cons q l ih =>
    by_cases hq : q.1 = k
    · simp [setAssoc, hq, lookupAssoc, List.find?]
    · have := ih
      simp only [lookupAssoc] at this ⊢
      simp [setAssoc, hq, List.find?, this]

/-- Tracker state holding the English URL as representative of
`example.com/docs/guide`. -/
def c5StateEn : DedupState :=
  ⟨[("example.com/docs/guide",
     ⟨"https://example.com/en/docs/guide", some "en"⟩)], 0, 1⟩

/-- Tracker state holding the German URL as representative of
`example.com/docs/guide`. -/
def c5StateDe : DedupState :=
  ⟨[("example.com/docs/guide",
     ⟨"https://example.com/de/docs/guide", some "de"⟩)], 0, 1⟩

/-- C5.  With preferred language `en`: after `/en/docs/guide` is
recorded, `/de/docs/guide` is skipped with reason `locale:de`; after
`/de/docs/guide` is recorded first, `/en/docs/guide` is accepted and
replaces the German representative (the resulting state stores exactly
the English URL under the single canonical key, so replacement is
monotonic toward the preferred language with one representative per
key). -/
theorem c5_locale_suppression :
    dedupShouldSkip emptyDedup "en" "https://example.com/en/docs/guide"
      = some (⟨false, none⟩, c5StateEn) ∧
    dedupShouldSkip c5StateEn "en" "https://example.com/de/docs/guide"
      = some (⟨true, some "locale:de"⟩, { c5StateEn with localeSkipped := 1 }) ∧
    dedupShouldSkip emptyDedup "en" "https://example.com/de/docs/guide"
      = some (⟨false, none⟩, c5StateDe) ∧
    dedupShouldSkip c5StateDe "en" "https://example.com/en/docs/guide"
      = some (⟨false, none⟩, c5StateEn) := by
  refine ⟨?_, ?_, ?_, ?_⟩ <;> decide

/-- C10 (part of the claim): URL-level dedup never rejects a URL without
a detected locale — such a URL is always accepted and silently replaces
the stored representative of its canonical key — and every skip verdict
concerns a locale-variant URL. -/
theorem c10_dedup_no_locale :
    (∀ (st : DedupState) (pref url : String) (p : UrlParts),
        parseUrl url = some p → (extractLocale url).hasLocale = false →
        ∃ st', dedupShouldSkip st pref url = some (⟨false, none⟩, st') ∧
          lookupAssoc st'.canonicalPaths
              (p.host ++ (extractLocale url).canonicalPath)
            = some ⟨url, (extractLocale url).locale⟩) ∧
    (∀ (st : DedupState) (pref url : String) (res : SkipResult)
        (st' : DedupState),
        dedupShouldSkip st pref url = some (res, st') → res.skip = true →
        (extractLocale url).hasLocale = true) := by
  constructor
  · intro st pref url p hp h
    refine ⟨_, dedupShouldSkip_no_locale st pref url p hp h, ?_⟩
    exact lookupAssoc_setAssoc _ _ _
  · intro st pref url res st' heq hskip
    by_cases hb : (extractLocale url).hasLocale = true
    · exact hb
    · exfalso
      have h : (extractLocale url).hasLocale = false := by
        cases hx : (extractLocale url).hasLocale
        · rfl
        · exact absurd hx hb
      rcases hp : parseUrl url with _ | p
      · rw [dedupShouldSkip_parse_none st pref url hp] at heq
        exact Option.noConfusion heq
      · rw [dedupShouldSkip_no_locale st pref url p hp h] at heq
        injection heq with heq2
        have hres : (⟨false, none⟩ : SkipResult) = res := congrArg Prod.fst heq2
        rw [← hres] at hskip
        simp at hskip

theorem c10_dedup_no_locale_witness :
    ∃ st', dedupShouldSkip
        ⟨[("example.com/docs/page", ⟨"https://example.com/old", none⟩)], 0, 1⟩
        "en" "https://example.com/docs/page" = some (⟨false, none⟩, st') ∧
      lookupAssoc st'.canonicalPaths
          ((⟨"https", "example.com", "/docs/page", []⟩ : UrlParts).host ++
            (extractLocale "https://example.com/docs/page").canonicalPath)
        = some ⟨"https://example.com/docs/page",
            (extractLocale "https://example.com/docs/page").locale⟩ :=
  c10_dedup_no_locale.1 _ "en" "https://example.com/docs/page"
    ⟨"https", "example.com", "/docs/page", []⟩ (by decide) (by decide)

/-- C3 counterexample.  With the visited set unchanged between the two
calls (it stays empty), two consecutive admission checks for the same
locale-bearing URL return different booleans: the first call accepts
`/de/docs/guide` and records it in the dedup tracker, the second call
rejects it. -/
theorem c3_admission_counterexample :
    (shouldCrawl defaultOptions [] ["example.com"] emptyRobots emptyDedup
        "https://example.com/de/docs/guide" 1).1 = true ∧
    (shouldCrawl defaultOptions [] ["example.com"] emptyRobots
        (shouldCrawl defaultOptions [] ["example.com"] emptyRobots emptyDedup
            "https://example.com/de/docs/guide" 1).2
        "https://example.com/de/docs/guide" 1).1 = false := by
  constructor <;> decide

/-- Every check of `shouldCrawl` before the dedup step is independent
of the dedup-tracker state: either some earlier check rejects (for
every tracker state, leaving it unchanged), or the verdict is exactly
the dedup step's. -/
theorem shouldCrawl_dedup_free (opts : CrawlOptions)
    (v bh : List String) (rb : RobotsState) (url : String) (dep : Nat) :
    (∀ dd : DedupState, shouldCrawl opts v bh rb dd url dep = (false, dd)) ∨
    (∀ dd : DedupState, shouldCrawl opts v bh rb dd url dep =
      match dedupShouldSkip dd "en" url with
      | none => (false, dd)
      | some (res, dedup') =>
        if res.skip then (false, dedup') else (true, dedup')) := by
  by_cases h1 : v.contains (normalizeUrl url) = true
  · exact Or.inl (fun dd => by simp only [shouldCrawl, h1, if_true])
  · by_cases h2 : opts.maxPages ≤ v.length
    · exact Or.inl (fun dd => by simp only [shouldCrawl, h1, if_false,
        if_pos h2, Bool.false_eq_true])
    · by_cases h3 : opts.depth < dep
      · exact Or.inl (fun dd => by
          simp only [shouldCrawl, h1, Bool.false_eq_true, if_false,
            if_neg h2, if_pos h3])
      · by_cases h4 : shouldSkipUrl url = true
        · exact Or.inl (fun dd => by
            simp only [shouldCrawl, h1, Bool.false_eq_true, if_false,
              if_neg h2, if_neg h3, h4, if_true])
        · by_cases h5 : (!(bh.contains (getBaseDomain url))) = true
          · exact Or.inl (fun dd => by
              simp only [shouldCrawl, h1, Bool.false_eq_true, if_false,
                if_neg h2, if_neg h3, h4, h5, if_true])
          · by_cases h6 :
                (opts.respectRobots && !(isAllowed rb url "*")) = true
            · exact Or.inl (fun dd => by
                simp only [shouldCrawl, h1, Bool.false_eq_true, if_false,
                  if_neg h2, if_neg h3, h4, h5, h6, if_true])
            · by_cases h7 : (match opts.includePattern with
                  | some p => !(p url)
                  | none => false) = true
              · exact Or.inl (fun dd => by
                  simp only [shouldCrawl, h1, Bool.false_eq_true, if_false,
                    if_neg h2, if_neg h3, h4, h5, h6, h7, if_true])
              · by_cases h8 : (match opts.excludePattern with
                    | some p => p url
                    | none => false) = true
                · exact Or.inl (fun dd => by
                    simp only [shouldCrawl, h1, Bool.false_eq_true, if_false,
                      if_neg h2, if_neg h3, h4, h5, h6, h7, h8, if_true])
                · exact Or.inr (fun dd => by
                    simp only [shouldCrawl, h1, Bool.false_eq_true, if_false,
                      if_neg h2, if_neg h3, h4, h5, h6, h7, h8])

/-- C3 as amended.  (i) Once a URL's normalisation is in the visited
set, every admission attempt is rejected.  (ii) For URLs in which no
locale is detected, a repeated admission check (same visited set,
dedup state threaded from the first call) returns the same boolean;
locale-bearing URLs are exempt because an accepting call records them
in the dedup tracker, as the counterexample shows. -/
theorem c3_admission_amended :
    (∀ (opts : CrawlOptions) (visited baseHosts : List String)
        (robots : RobotsState) (dedup : DedupState) (url : String)
        (depth : Nat),
        visited.contains (normalizeUrl url) = true →
        (shouldCrawl opts visited baseHosts robots dedup url depth).1 = false) ∧
    (∀ (opts : CrawlOptions) (visited baseHosts : List String)
        (robots : RobotsState) (dedup : DedupState) (url : String)
        (depth : Nat),
        (extractLocale url).hasLocale = false →
        (shouldCrawl opts visited baseHosts robots
            (shouldCrawl opts visited baseHosts robots dedup url depth).2
            url depth).1
          = (shouldCrawl opts visited baseHosts robots dedup url depth).1) := by
  constructor
  · intro opts v bh rb dd url dep h
    simp only [shouldCrawl, h, if_true]
  · intro opts v bh rb dd url dep h
    rcases shouldCrawl_dedup_free opts v bh rb url dep with hF | hM
    · rw [hF dd]
      rw [hF dd]
    · rcases hp : parseUrl url with _ | p
      · have hn : ∀ st : DedupState, dedupShouldSkip st "en" url = none :=
          fun st => dedupShouldSkip_parse_none st "en" url hp
        rw [hM dd, hn dd]
        rw [hM dd, hn dd]
      · have hAll := fun st => dedupShouldSkip_no_locale st "en" url p hp h
        rw [hM dd, hAll dd]
        rw [hM _, hAll _]
        simp

theorem c3_admission_amended_witness :
    ((shouldCrawl defaultOptions ["https://example.com/page"] ["example.com"]
        emptyRobots emptyDedup "https://example.com/page" 1).1 = false) ∧
    ((shouldCrawl defaultOptions [] ["example.com"] emptyRobots
        (shouldCrawl defaultOptions [] ["example.com"] emptyRobots emptyDedup
            "https://example.com/about" 1).2
        "https://example.com/about" 1).1
      = (shouldCrawl defaultOptions [] ["example.com"] emptyRobots emptyDedup
          "https://example.com/about" 1).1) :=
  ⟨c3_admission_amended.1 defaultOptions _ _ _ _ _ _ (by decide),
   c3_admission_amended.2 defaultOptions _ _ _ _ _ _ (by decide)⟩

/-! ## Robots longest-match (claim C4) -/

theorem betterMatch_eq_or (b c : RMatch) :
    betterMatch b c = b ∨ betterMatch b c = c := by
  unfold betterMatch
  split_ifs <;> simp

theorem betterMatch_le_left (b c : RMatch) :
    b.pattern.length ≤ (betterMatch b c).pattern.length := by
  unfold betterMatch
  split_ifs with h1 h2
  · omega
  · simp only [Bool.and_eq_true, decide_eq_true_eq] at h2
    omega
  · omega

theorem betterMatch_le_right (b c : RMatch) :
    c.pattern.length ≤ (betterMatch b c).pattern.length := by
  unfold betterMatch
  split_ifs with h1 h2
  · omega
  · simp only [Bool.and_eq_true, decide_eq_true_eq] at h2
    omega
  · omega

theorem betterMatch_allow_left (b c : RMatch) (ha : b.isAllow = true)
    (hl : (betterMatch b c).pattern.length ≤ b.pattern.length) :
    (betterMatch b c).isAllow = true := by
  unfold betterMatch at hl ⊢
  split_ifs at hl ⊢ with h1 h2
  · exact absurd hl (by omega)
  · exact (Bool.and_eq_true _ _ ▸ h2).2
  · exact ha

theorem betterMatch_allow_right (b c : RMatch) (ha : c.isAllow = true)
    (hl : (betterMatch b c).pattern.length ≤ c.pattern.length) :
    (betterMatch b c).isAllow = true := by
  unfold betterMatch at hl ⊢
  split_ifs at hl ⊢ with h1 h2
  · exact ha
  · exact (Bool.and_eq_true _ _ ▸ h2).2
  · simp only [Bool.and_eq_true, decide_eq_true_eq, not_and] at h2
    exfalso
    have := h2 (by omega)
    simp [ha] at this

/-- The specification of the `reduce` in `isAllowed`: the selected
match is one of the collected matches, its pattern length is maximal,
and whenever some allow match attains the maximal length the selected
match is an allow (ties go to allow). -/
theorem foldl_betterMatch_spec (ms : List RMatch) (m : RMatch) :
    (ms.foldl betterMatch m ∈ m :: ms) ∧
    (∀ x ∈ m :: ms,
      x.pattern.length ≤ (ms.foldl betterMatch m).pattern.length) ∧
    ((∃ x ∈ m :: ms, x.isAllow = true ∧
        (ms.foldl betterMatch m).pattern.length ≤ x.pattern.length) →
      (ms.foldl betterMatch m).isAllow = true) := by
  induction ms generalizing m with
  | nil =>
    refine ⟨List.mem_singleton_self m, ?_, ?_⟩
    · intro x hx
      simp only [List.foldl_nil]
      rw [List.mem_singleton.mp hx]
    · rintro ⟨x, hx, ha, hl⟩
      rw [List.mem_singleton.mp hx] at ha
      simpa using ha
  | cons c cs ih =>
    obtain ⟨ih1, ih2, ih3⟩ := ih (betterMatch m c)
    simp only [List.foldl_cons]
    have hmem : cs.foldl betterMatch (betterMatch m c) ∈ m :: c :: cs := by
      rcases List.mem_cons.mp ih1 with hh | ht
      · rcases betterMatch_eq_or m c with he | he
        · rw [hh, he]; exact List.mem_cons_self _ _
        · rw [hh, he]
          exact List.mem_cons_of_mem _ (List.mem_cons_self _ _)
      · exact List.mem_cons_of_mem _ (List.mem_cons_of_mem _ ht)
    have hbmc : (betterMatch m c).pattern.length ≤
        (cs.foldl betterMatch (betterMatch m c)).pattern.length :=
      ih2 _ (List.mem_cons_self _ _)
    have hmax : ∀ x ∈ m :: c :: cs,
        x.pattern.length ≤
          (cs.foldl betterMatch (betterMatch m c)).pattern.length := by
      intro x hx
      rcases List.mem_cons.mp hx with hh | hx2
      · rw [hh]
        exact le_trans (betterMatch_le_left m c) hbmc
      · rcases List.mem_cons.mp hx2 with hh | ht
        · rw [hh]
          exact le_trans (betterMatch_le_right m c) hbmc
        · exact ih2 x (List.mem_cons_of_mem _ ht)
    refine ⟨hmem, hmax, ?_⟩
    rintro ⟨x, hx, ha, hl⟩
    rcases List.mem_cons.mp hx with hh | hx2
    · -- the allow of maximal length is `m`
      subst hh
      apply ih3
      refine ⟨betterMatch x c, List.mem_cons_self _ _, ?_,
        le_trans hl (betterMatch_le_left x c)⟩
      exact betterMatch_allow_left x c ha (by omega)
    · rcases List.mem_cons.mp hx2 with hh | ht
      · -- the allow of maximal length is `c`
        subst hh
        apply ih3
        refine ⟨betterMatch m x, List.mem_cons_self _ _, ?_,
          le_trans hl (betterMatch_le_right m x)⟩
        exact betterMatch_allow_right m x ha (by omega)
      · exact ih3 ⟨x, List.mem_cons_of_mem _ ht, ha, hl⟩

/-- The robots.txt text of the first C4 scenario. -/
def c4RulesLonger : RobotsState :=
  parseRobotsTxt emptyRobots "example.com"
    "User-agent: *\nDisallow: /a\nAllow: /a/b"

/-- The robots.txt text of the tie scenario. -/
def c4RulesTie : RobotsState :=
  parseRobotsTxt emptyRobots "example.com"
    "User-agent: *\nDisallow: /x\nAllow: /x"

/-- C4.  In `isAllowed` the longest matching pattern decides and a tie
goes to allow: the match selected by the `reduce` step is always of
maximal pattern length among the collected matches, and is an allow
match whenever an allow pattern attains that length; consequently,
with rules `Disallow: /a` / `Allow: /a/b` for `*` the path `/a/b/c` is
allowed (longer allow wins), and with the equal-length rules
`Disallow: /x` / `Allow: /x` the path `/x` is allowed (tie). -/
theorem c4_robots_longest_match :
    (∀ (ms : List RMatch) (m : RMatch),
      (∀ x ∈ m :: ms,
        x.pattern.length ≤ (ms.foldl betterMatch m).pattern.length) ∧
      ((∃ x ∈ m :: ms, x.isAllow = true ∧
          (ms.foldl betterMatch m).pattern.length ≤ x.pattern.length) →
        (ms.foldl betterMatch m).isAllow = true)) ∧
    isAllowed c4RulesLonger "https://example.com/a/b/c" "*" = true ∧
    isAllowed c4RulesTie "https://example.com/x" "*" = true := by
  refine ⟨fun ms m => ⟨(foldl_betterMatch_spec ms m).2.1,
    (foldl_betterMatch_spec ms m).2.2⟩, ?_, ?_⟩ <;> decide

theorem c4_robots_longest_match_witness :
    (([⟨"/a", false⟩] : List RMatch).foldl betterMatch
        ⟨"/a/b", true⟩).isAllow = true :=
  (c4_robots_longest_match.1 [⟨"/a", false⟩] ⟨"/a/b", true⟩).2
    ⟨⟨"/a/b", true⟩, List.mem_cons_self _ _, rfl,
      (c4_robots_longest_match.1 [⟨"/a", false⟩] ⟨"/a/b", true⟩).1
        ⟨"/a/b", true⟩ (List.mem_cons_self _ _)⟩

/-! ## Waterfall escalation (claim C6) -/

/-- Any result returned by the escalation loop was produced by one of
the strategies it was given. -/
theorem waterfallLoop_ok_engine_mem (oracle : EngineOracle) (url : String) :
    ∀ (es invoked : List EngineName) (r : EngineResult)
      (invoked2 : List EngineName),
      waterfallLoop oracle url es invoked = (.ok r, invoked2) →
      r.engine ∈ es := by
  intro es
  induction es with
  | nil =>
    intro invoked r invoked2 h
    simp [waterfallLoop] at h
  | cons e rest ih =>
    intro invoked r invoked2 h
    unfold waterfallLoop at h
    cases h0 : fetchWithEngine oracle url e with
    | none =>
      rw [h0] at h
      dsimp only at h
      exact List.mem_cons_of_mem _ (ih _ r invoked2 h)
    | some r0 =>
      rw [h0] at h
      dsimp only at h
      by_cases hb : r0.blocked = true
      · rw [if_pos hb] at h
        exact List.mem_cons_of_mem _ (ih _ r invoked2 h)
      · rw [if_neg hb] at h
        have hr : r0 = r := by
          injection h with h1 h2
          injection h1
        have he : r0.engine = e := by
          unfold fetchWithEngine at h0
          cases horacle : oracle e with
          | none => rw [horacle] at h0; exact Option.noConfusion h0
          | some raw =>
            rw [horacle] at h0
            injection h0 with h0
            rw [← h0]
        rw [← hr, he]
        exact List.mem_cons_self _ _

/-- C6.  When the cheap strategy's response is classified blocked, a
result returned by the un-forced waterfall never carries the cheap
strategy (the loop only returns un-blocked results, escalating
otherwise); and a forced strategy is the only strategy invoked,
regardless of block detection. -/
theorem c6_waterfall_escalation (oracle : EngineOracle) (url : String)
    (hblocked : ∀ out, oracle .fetch = some out →
      (isBlocked out.html out.statusCode url).blocked = true) :
    (∀ (r : EngineResult) (invoked : List EngineName),
      waterfallFetch oracle url none = (.ok r, invoked) →
      r.engine ≠ .fetch) ∧
    (∀ e : EngineName, (waterfallFetch oracle url (some e)).2 = [e]) := by
  constructor
  · intro r invoked h
    unfold waterfallFetch at h
    dsimp only at h
    by_cases hnb : needsBrowser url = true
    · rw [if_pos hnb] at h
      have hmem := waterfallLoop_ok_engine_mem oracle url _ _ _ _ h
      intro hf
      rw [hf] at hmem
      simp [ENGINES_ORDER] at hmem
    · rw [if_neg hnb] at h
      rw [show ENGINES_ORDER.drop 0 = ENGINES_ORDER from rfl] at h
      rw [show ENGINES_ORDER =
        [EngineName.fetch, EngineName.playwright, EngineName.rebrowser]
        from rfl] at h
      unfold waterfallLoop at h
      cases h0 : fetchWithEngine oracle url .fetch with
      | none =>
        rw [h0] at h
        dsimp only at h
        have hmem := waterfallLoop_ok_engine_mem oracle url _ _ _ _ h
        intro hf
        rw [hf] at hmem
        simp at hmem
      | some r0 =>
        have hb : r0.blocked = true := by
          unfold fetchWithEngine at h0
          cases horacle : oracle .fetch with
          | none => rw [horacle] at h0; exact Option.noConfusion h0
          | some raw =>
            rw [horacle] at h0
            dsimp only at h0
            injection h0 with h0
            rw [← h0]
            exact hblocked raw horacle
        rw [h0] at h
        dsimp only at h
        rw [if_pos hb] at h
        have hmem := waterfallLoop_ok_engine_mem oracle url _ _ _ _ h
        intro hf
        rw [hf] at hmem
        simp at hmem
  · intro e
    unfold waterfallFetch
    dsimp only
    cases h0 : fetchWithEngine oracle url e <;> rfl

/-- A network behaviour that rate-limits the cheap strategy (HTTP 429)
and serves content to the browser strategies. -/
def c6Oracle : EngineOracle := fun e =>
  match e with
  | .fetch => some ⟨"", 429, "https://example.com/"⟩
  | _ => some ⟨"hello", 200, "https://example.com/"⟩

theorem c6_waterfall_escalation_witness :
    (⟨"hello", 200, .playwright, false, none,
        "https://example.com/"⟩ : EngineResult).engine ≠ .fetch ∧
    (waterfallFetch c6Oracle "https://example.com" (some .fetch)).2
      = [.fetch] := by
  have hmain := c6_waterfall_escalation c6Oracle "https://example.com"
    (by intro out hout; injection hout with hout; rw [← hout]; decide)
  refine ⟨hmain.1 _ [.fetch, .playwright] ?_, hmain.2 .fetch⟩
  rfl

/-! ## Block-detector provider classification (claim C7) -/

/-- C7 counterexample.  The body `"perimeterx"` matches exactly one
PerimeterX marker, yet the detector classifies it as a PerimeterX
block (`access_denied`, confidence 0.85): the PerimeterX branch uses
`some(...)`, not a two-marker threshold, so "at least 2 distinct
markers of that provider" is false for PerimeterX. -/
theorem c7_provider_block_counterexample :
    isBlocked "perimeterx" 200 "https://example.com"
      = ⟨true, some .access_denied, 85/100⟩ ∧
    countMatches PERIMETERX_PATTERNS "perimeterx" = 1 := by
  constructor
  · rfl
  · decide

/-- Two pattern-list entries matching the body put the match count at
two or more. -/
theorem two_le_countMatches (l1 l2 l3 : List (String → Bool))
    (p q : String → Bool) (s : String) (hp : p s = true) (hq : q s = true) :
    2 ≤ countMatches (l1 ++ p :: (l2 ++ q :: l3)) s := by
  unfold countMatches
  simp only [List.filter_append, List.filter_cons, hp, hq, if_true,
    List.length_append, List.length_cons]
  generalize (List.filter (fun p => p s) l1).length = a
  generalize (List.filter (fun p => p s) l2).length = b
  generalize (List.filter (fun p => p s) l3).length = c
  omega

/-- Exhaustive shape of the detector's verdict on an HTTP 200 response:
one branch per classification, each carrying its branch condition. -/
theorem isBlocked_200_shape (html u : String) :
    isBlocked html 200 u = ⟨true, some .empty_body, 7/10⟩ ∨
    isBlocked html 200 u = ⟨true, some .cloudflare, 9/10⟩ ∨
    (isBlocked html 200 u = ⟨true, some .datadome, 9/10⟩ ∧
      2 ≤ countMatches DATADOME_PATTERNS html ∧ html.length < 50000) ∨
    (isBlocked html 200 u = ⟨true, some .access_denied, 85/100⟩ ∧
      anyMatches PERIMETERX_PATTERNS html = true ∧ html.length < 50000) ∨
    (isBlocked html 200 u = ⟨true, some .access_denied, 8/10⟩ ∧
      2 ≤ countMatches AKAMAI_PATTERNS html ∧ html.length < 50000) ∨
    isBlocked html 200 u = ⟨true, some .captcha, 85/100⟩ ∨
    isBlocked html 200 u = ⟨true, some .access_denied, 7/10⟩ ∨
    isBlocked html 200 u = ⟨true, some .javascript_required, 6/10⟩ ∨
    isBlocked html 200 u = ⟨false, none, 0⟩ := by
  unfold isBlocked
  rw [if_neg (by omega : ¬((200 : Nat) = 403)),
      if_neg (by omega : ¬((200 : Nat) = 429)),
      if_neg (fun hc => absurd hc.1 (by omega) :
        ¬((200 : Nat) = 503 ∧ anyMatches CLOUDFLARE_PATTERNS html = true))]
  by_cases h4 : html.length < 500 ∧ html ≠ "" ∧
      (containsStr html "challenge" = true ∨ containsStr html "captcha" = true)
  · rw [if_pos h4]
    exact Or.inl rfl
  rw [if_neg h4]
  by_cases h5 : 2 ≤ countMatches CLOUDFLARE_PATTERNS html
  · rw [if_pos h5]
    exact Or.inr (Or.inl rfl)
  rw [if_neg h5]
  by_cases h6 : 2 ≤ countMatches DATADOME_PATTERNS html ∧ html.length < 50000
  · rw [if_pos h6]
    exact Or.inr (Or.inr (Or.inl ⟨rfl, h6⟩))
  rw [if_neg h6]
  by_cases h7 : anyMatches PERIMETERX_PATTERNS html = true ∧
      html.length < 50000
  · rw [if_pos h7]
    exact Or.inr (Or.inr (Or.inr (Or.inl ⟨rfl, h7⟩)))
  rw [if_neg h7]
  by_cases h8 : 2 ≤ countMatches AKAMAI_PATTERNS html ∧ html.length < 50000
  · rw [if_pos h8]
    exact Or.inr (Or.inr (Or.inr (Or.inr (Or.inl ⟨rfl, h8⟩))))
  rw [if_neg h8]
  by_cases h9 : 2 ≤ countMatches CAPTCHA_PATTERNS html ∧ html.length < 10000
  · rw [if_pos h9]
    exact Or.inr (Or.inr (Or.inr (Or.inr (Or.inr (Or.inl rfl)))))
  rw [if_neg h9]
  by_cases h10 : anyMatches BOT_DETECTION_PATTERNS html = true ∧
      html.length < 3000
  · rw [if_pos h10]
    exact Or.inr (Or.inr (Or.inr (Or.inr (Or.inr (Or.inr (Or.inl rfl))))))
  rw [if_neg h10]
  by_cases h11 : containsStr html "noscript" = true ∧
      (containsStr html "enable javascript" = true ∨
       containsStr html "JavaScript is required" = true) ∧
      containsStr html "<article" = false ∧
      containsStr html "<main" = false ∧ html.length < 5000
  · rw [if_pos h11]
    exact Or.inr (Or.inr (Or.inr (Or.inr (Or.inr (Or.inr (Or.inr
      (Or.inl rfl)))))))
  rw [if_neg h11]
  exact Or.inr (Or.inr (Or.inr (Or.inr (Or.inr (Or.inr (Or.inr (Or.inr
    rfl)))))))

/-- C7 as amended.  DataDome and Akamai classifications do require ≥ 2
distinct provider markers together with the 50000-character body
ceiling; the PerimeterX classification requires only ≥ 1 marker (plus
the ceiling); and the Cloudflare two-marker classification has no body
ceiling at all — arbitrarily long pages carrying two Cloudflare
markers are flagged. -/
theorem c7_provider_block_amended :
    (∀ (html u : String), (isBlocked html 200 u).reason = some .datadome →
      2 ≤ countMatches DATADOME_PATTERNS html ∧ html.length < 50000) ∧
    (∀ (html u : String),
      isBlocked html 200 u = ⟨true, some .access_denied, 8/10⟩ →
      2 ≤ countMatches AKAMAI_PATTERNS html ∧ html.length < 50000) ∧
    (∀ (html u : String),
      isBlocked html 200 u = ⟨true, some .access_denied, 85/100⟩ →
      anyMatches PERIMETERX_PATTERNS html = true ∧ html.length < 50000) ∧
    (∀ pad : String, 50000 ≤ pad.length →
      isBlocked ("cloudflare ray id:" ++ pad) 200 "u"
        = ⟨true, some .cloudflare, 9/10⟩) := by
  refine ⟨?_, ?_, ?_, ?_⟩
  · intro html u h
    rcases isBlocked_200_shape html u with heq | heq | ⟨heq, hc⟩ |
      ⟨heq, hc⟩ | ⟨heq, hc⟩ | heq | heq | heq | heq
    all_goals first
      | (exact hc)
      | (rw [heq] at h; exact absurd h (by decide))
  · intro html u h
    rcases isBlocked_200_shape html u with heq | heq | ⟨heq, hc⟩ |
      ⟨heq, hc⟩ | ⟨heq, hc⟩ | heq | heq | heq | heq
    all_goals first
      | (exact hc)
      | (exfalso
         have hEq := heq.symm.trans h
         injection hEq with hb hr hcf
         first
           | exact absurd hr (by decide)
           | norm_num at hcf)
  · intro html u h
    rcases isBlocked_200_shape html u with heq | heq | ⟨heq, hc⟩ |
      ⟨heq, hc⟩ | ⟨heq, hc⟩ | heq | heq | heq | heq
    all_goals first
      | (exact hc)
      | (exfalso
         have hEq := heq.symm.trans h
         injection hEq with hb hr hcf
         first
           | exact absurd hr (by decide)
           | norm_num at hcf)
  · intro pad hlen
    have h18 : ("cloudflare ray id:").length = 18 := rfl
    have hL : ("cloudflare ray id:" ++ pad).length = 18 + pad.length := by
      rw [String.length_append, h18]
    have hdata : ("cloudflare ray id:" ++ pad).data
        = ("cloudflare ray id:").data ++ pad.data := String.data_append _ _
    have hcfA : containsCI ("cloudflare ray id:" ++ pad) "cloudflare"
        = true := by
      unfold containsCI
      rw [hdata]
      unfold lowerL
      rw [List.map_append]
      exact subListB_append_of_subListB _ _ _ (by decide)
    have hcfB : containsCI ("cloudflare ray id:" ++ pad) "ray id:"
        = true := by
      unfold containsCI
      rw [hdata]
      unfold lowerL
      rw [List.map_append]
      exact subListB_append_of_subListB _ _ _ (by decide)
    have hdecomp : CLOUDFLARE_PATTERNS =
        [fun h => containsCI h "checking your browser",
         fun h => containsCI h "cf-browser-verification"] ++
        (fun h => containsCI h "cloudflare") ::
        ([fun h => containsStr h "_cf_chl_opt",
          fun h => containsCI h "challenge-platform",
          fun h => containsCI h "just a moment..."] ++
         (fun h => containsCI h "ray id:") ::
         [fun h => containsCI h "cf-turnstile"]) := rfl
    have hcf : 2 ≤ countMatches CLOUDFLARE_PATTERNS
        ("cloudflare ray id:" ++ pad) := by
      rw [hdecomp]
      exact two_le_countMatches _ _ _ _ _ _ hcfA hcfB
    unfold isBlocked
    rw [if_neg (by omega : ¬((200 : Nat) = 403))]
    rw [if_neg (by omega : ¬((200 : Nat) = 429))]
    rw [if_neg (fun hc => by omega : ¬((200 : Nat) = 503 ∧
      anyMatches CLOUDFLARE_PATTERNS ("cloudflare ray id:" ++ pad) = true))]
    rw [if_neg ?hshort]
    case hshort =>
      intro hc
      rw [hL] at hc
      omega
    rw [if_pos hcf]

theorem c7_provider_block_amended_witness :
    (2 ≤ countMatches DATADOME_PATTERNS "datadome dd.js" ∧
      ("datadome dd.js" : String).length < 50000) ∧
    (2 ≤ countMatches AKAMAI_PATTERNS "akamai ak_bmsc" ∧
      ("akamai ak_bmsc" : String).length < 50000) ∧
    (anyMatches PERIMETERX_PATTERNS "_pxhd" = true ∧
      ("_pxhd" : String).length < 50000) ∧
    isBlocked ("cloudflare ray id:" ++ String.mk (List.replicate 50000 'a'))
        200 "u" = ⟨true, some .cloudflare, 9/10⟩ :=
  ⟨c7_provider_block_amended.1 "datadome dd.js" "u" (by decide),
   c7_provider_block_amended.2.1 "akamai ak_bmsc" "u" (by rfl),
   c7_provider_block_amended.2.2.1 "_pxhd" "u" (by rfl),
   c7_provider_block_amended.2.2.2 (String.mk (List.replicate 50000 'a'))
     (by rw [show (String.mk (List.replicate 50000 'a')).length
          = (List.replicate 50000 'a').length from rfl, List.length_replicate])⟩

/-! ## Sitemap cap (claim C8) -/

/-- Every URL produced by the child-sitemap loop either was in the
accumulator already or came from the urlset of a fetched child. -/
theorem sitemapLoop_sources (fetchO : String → Option String)
    (parseUrlsetF : String → List String) :
    ∀ (idx urls fetched : List String) (u : String),
      u ∈ (sitemapLoop fetchO parseUrlsetF idx urls fetched).1 →
      u ∈ urls ∨ ∃ c, c ∈ idx ∧ ∃ sub, fetchO c = some sub ∧
        u ∈ parseUrlsetF sub := by
  intro idx
  induction idx with
  | nil =>
    intro urls fetched u hu
    exact Or.inl hu
  | cons iu rest ih =>
    intro urls fetched u hu
    unfold sitemapLoop at hu
    split_ifs at hu with hfull
    · exact Or.inl hu
    · cases hf : fetchO iu with
      | none =>
        rw [hf] at hu
        rcases ih _ _ u hu with h | ⟨c, hc, sub, hsub, hmem⟩
        · exact Or.inl h
        · exact Or.inr ⟨c, List.mem_cons_of_mem _ hc, sub, hsub, hmem⟩
      | some sub =>
        rw [hf] at hu
        rcases ih _ _ u hu with h | ⟨c, hc, sub2, hsub2, hmem⟩
        · rcases List.mem_append.mp h with h2 | h2
          · exact Or.inl h2
          · exact Or.inr ⟨iu, List.mem_cons_self _ _, sub, hf,
              List.mem_of_mem_take h2⟩
        · exact Or.inr ⟨c, List.mem_cons_of_mem _ hc, sub2, hsub2, hmem⟩

/-- Every child sitemap the loop attempts to fetch is in its input
list (or was already in the fetched accumulator). -/
theorem sitemapLoop_fetched (fetchO : String → Option String)
    (parseUrlsetF : String → List String) :
    ∀ (idx urls fetched : List String) (c : String),
      c ∈ (sitemapLoop fetchO parseUrlsetF idx urls fetched).2 →
      c ∈ fetched ∨ c ∈ idx := by
  intro idx
  induction idx with
  | nil =>
    intro urls fetched c hc
    exact Or.inl hc
  | cons iu rest ih =>
    intro urls fetched c hc
    unfold sitemapLoop at hc
    split_ifs at hc with hfull
    · exact Or.inl hc
    · have step : ∀ urls2,
          c ∈ (sitemapLoop fetchO parseUrlsetF rest urls2
                (fetched ++ [iu])).2 →
          c ∈ fetched ∨ c ∈ iu :: rest := by
        intro urls2 hc2
        rcases ih _ _ c hc2 with h | h
        · rcases List.mem_append.mp h with h2 | h2
          · exact Or.inl h2
          · simp only [List.mem_singleton] at h2
            exact Or.inr (h2 ▸ List.mem_cons_self _ _)
        · exact Or.inr (List.mem_cons_of_mem _ h)
      cases hf : fetchO iu with
      | none =>
        rw [hf] at hc
        exact step _ hc
      | some sub =>
        rw [hf] at hc
        exact step _ hc

/-- C8.  `parseSitemapContent` discovers at most 200 URLs; on a sitemap
index only the first two child sitemaps are ever fetched, and every
discovered URL comes from one of those first two children — so an index
referencing 10 children of 500 URLs each yields at most 200 URLs drawn
only from the first two. -/
theorem c8_sitemap_cap (fetchO : String → Option String)
    (parseIndexF parseUrlsetF : String → List String) (content : String) :
    (parseSitemapContent fetchO parseIndexF parseUrlsetF content).1.length
      ≤ 200 ∧
    (containsStr content "<sitemapindex" = true →
      (∀ c ∈ (parseSitemapContent fetchO parseIndexF parseUrlsetF
          content).2, c ∈ (parseIndexF content).take 2) ∧
      (∀ u ∈ (parseSitemapContent fetchO parseIndexF parseUrlsetF
          content).1,
        ∃ c, c ∈ (parseIndexF content).take 2 ∧
          ∃ sub, fetchO c = some sub ∧ u ∈ parseUrlsetF sub)) := by
  constructor
  · unfold parseSitemapContent
    split_ifs with hidx
    · simp only [List.length_take]
      omega
    · simp only [List.length_take]
      omega
  · intro hidx
    constructor
    · intro c hc
      unfold parseSitemapContent at hc
      rw [if_pos hidx] at hc
      rcases sitemapLoop_fetched fetchO parseUrlsetF _ _ _ c hc with h | h
      · simp at h
      · exact h
    · intro u hu
      unfold parseSitemapContent at hu
      rw [if_pos hidx] at hu
      have hu2 := List.mem_of_mem_take hu
      rcases sitemapLoop_sources fetchO parseUrlsetF _ _ _ u hu2 with h | h
      · simp at h
      · exact h

theorem c8_sitemap_cap_witness :
    (parseSitemapContent (fun c => some c)
        (fun _ => ["c0", "c1", "c2", "c3", "c4", "c5", "c6", "c7", "c8",
          "c9"])
        (fun _ => List.replicate 500 "u") "<sitemapindex/>").1.length
      ≤ 200 ∧
    (∀ u ∈ (parseSitemapContent (fun c => some c)
        (fun _ => ["c0", "c1", "c2", "c3", "c4", "c5", "c6", "c7", "c8",
          "c9"])
        (fun _ => List.replicate 500 "u") "<sitemapindex/>").1,
      ∃ c, c ∈ (["c0", "c1", "c2", "c3", "c4", "c5", "c6", "c7", "c8",
          "c9"] : List String).take 2 ∧
        ∃ sub, (fun c => some (c : String)) c = some sub ∧
          u ∈ List.replicate 500 "u") :=
  ⟨(c8_sitemap_cap _ _ _ _).1,
   ((c8_sitemap_cap (fun c => some c)
      (fun _ => ["c0", "c1", "c2", "c3", "c4", "c5", "c6", "c7", "c8",
        "c9"])
      (fun _ => List.replicate 500 "u") "<sitemapindex/>").2
     (by decide)).2⟩

/-! ## Robots fail-open (claim C9) -/

/-- C9.  (i) When a host has no robots record yet and the robots.txt
fetch fails or returns non-OK, `parse` records an empty rule set for
the host and `isAllowed` subsequently answers true for every URL of
that host.  (ii) When no robots record exists for a host, `isAllowed`
answers true for every URL of that host. -/
theorem c9_robots_fail_open :
    (∀ (st : RobotsState) (url : String) (p : UrlParts)
        (response : Option (Bool × String)),
        parseUrl url = some p →
        lookupAssoc st.rules p.host = none →
        robotsFetchFailed response = true →
        lookupAssoc (robotsParse st url response).rules p.host = some [] ∧
        (∀ (url2 : String) (p2 : UrlParts), parseUrl url2 = some p2 →
          p2.host = p.host →
          isAllowed (robotsParse st url response) url2 "*" = true)) ∧
    (∀ (st : RobotsState) (url : String) (p : UrlParts),
        parseUrl url = some p →
        lookupAssoc st.rules p.host = none →
        isAllowed st url "*" = true) := by
  constructor
  · intro st url p response hp hnone hfail
    have hstate : (robotsParse st url response).rules
        = setAssoc st.rules p.host [] := by
      unfold robotsParse
      rw [hp]
      dsimp only
      rw [hnone]
      dsimp only [Option.isSome]
      rw [if_neg (by simp)]
      cases response with
      | none => rfl
      | some r =>
        obtain ⟨ok, text⟩ := r
        unfold robotsFetchFailed at hfail
        cases ok with
        | false => rfl
        | true => simp at hfail
    have hlook : lookupAssoc (robotsParse st url response).rules p.host
        = some [] := by
      rw [hstate]
      exact lookupAssoc_setAssoc _ _ _
    refine ⟨hlook, ?_⟩
    intro url2 p2 hp2 hhost
    unfold isAllowed
    rw [hp2]
    dsimp only
    rw [hhost, hlook]
    rfl
  · intro st url p hp hnone
    unfold isAllowed
    rw [hp]
    dsimp only
    rw [hnone]

theorem c9_robots_fail_open_witness :
    lookupAssoc (robotsParse emptyRobots "https://example.com/start"
        none).rules "example.com" = some [] ∧
    isAllowed (robotsParse emptyRobots "https://example.com/start" none)
      "https://example.com/any/path" "*" = true :=
  ⟨((c9_robots_fail_open.1 emptyRobots "https://example.com/start"
      ⟨"https", "example.com", "/start", []⟩ none (by decide) (by decide)
      (by decide)).1),
   ((c9_robots_fail_open.1 emptyRobots "https://example.com/start"
      ⟨"https", "example.com", "/start", []⟩ none (by decide) (by decide)
      (by decide)).2 "https://example.com/any/path"
      ⟨"https", "example.com", "/any/path", []⟩ (by decide) (by decide))⟩

end Clippy
